import Mathlib

/-!
Shallow embedding of the replicated-log service (master `src/master/app.py`,
secondary `src/secondary/app.py`).

Conventions of the embedding:
* The in-memory message stores (`MESSAGES`) become explicit `List` values
  threaded through the handlers; each handler returns its outcome together
  with the updated store.
* Sequence numbers on the secondary are `Int`, because the replicate endpoint
  accepts arbitrary JSON integers (including the default `0` when the field
  is absent).  On the master they are `Nat`: the counter starts at `0` and is
  only ever incremented.
* Fallible JSON fields are `Option`s: `none` models a missing field or a
  field of the wrong type (the code checks `isinstance(msg, str)`).
* The secondary's `random.random() < 0.2` simulated-error coin toss is an
  explicit boolean input `err` of `replicate`.
* Wall-clock timestamps (`time.time()`) are a `Nat` input `now`; nothing in
  the verified properties depends on their values.
-/

namespace ReplicatedLog

/-! ## Secondary apply engine (`src/secondary/app.py`) -/

/-- One stored entry of a secondary: `(seq, msg)`. -/
abbrev Entry := Int × String

/-- Python `list.insert(pos, x)`: insert at index `pos`, clamping to the end
when `pos` exceeds the length (Python semantics). -/
def list_insert {α : Type} : List α → Nat → α → List α
  | l, 0, x => x :: l
  | [], _ + 1, x => [x]
  | y :: l, n + 1, x => y :: list_insert l n x

/-- The insert-position scan of `replicate` (`src/secondary/app.py` lines
62-68): walk the stored list, remembering `i+1` for every leading entry whose
seq is `< seq`, and stop at the first entry whose seq is `≥ seq`. -/
def insert_pos : List Entry → Int → Nat
  | [], _ => 0
  | (s, _) :: rest, seq => if s < seq then insert_pos rest seq + 1 else 0

/-- Outcome of `POST /replicate` on a secondary. -/
inductive ReplicateOutcome where
  /-- `400 {"error": "Expected JSON with string field 'msg'"}`. -/
  | badRequest : ReplicateOutcome
  /-- `200 {"status":"ok","idx":-1,"duplicate":true}`: `seq` already stored. -/
  | dupOk : ReplicateOutcome
  /-- `500 {"error":"simulated internal error","seq":seq}` (emitted after the
  insert already happened). -/
  | simulatedError (seq : Int) : ReplicateOutcome
  /-- `200 {"status":"ok","seq":seq}`. -/
  | ok (seq : Int) : ReplicateOutcome
deriving DecidableEq, Repr

/-- HTTP status code of a `/replicate` outcome. -/
def repStatusCode : ReplicateOutcome → Nat
  | .badRequest => 400
  | .dupOk => 200
  | .simulatedError _ => 500
  | .ok _ => 200

/-- Whether the `/replicate` response carries `"duplicate": true`. -/
def repDuplicateFlag : ReplicateOutcome → Bool
  | .dupOk => true
  | _ => false

/-- `POST /replicate` handler of the secondary (`src/secondary/app.py` lines
42-77).  `body_msg`/`body_seq` are the JSON fields (`none` = absent or, for
`msg`, not a string; a missing `seq` defaults to `0` as in
`data.get("seq", 0)`); `err` is the outcome of the `random.random() < 0.2`
coin toss, which fires only on the non-duplicate path, after the insert.
Returns the response and the updated store.  The artificial `DELAY_MS` sleep
has no effect on the store or response and is not modelled. -/
def replicate (msgs : List Entry) (body_msg : Option String)
    (body_seq : Option Int) (err : Bool) : ReplicateOutcome × List Entry :=
  match body_msg with
  | none => (.badRequest, msgs)
  | some m =>
    let seq := body_seq.getD 0
    if msgs.any (fun p => p.1 == seq) then
      (.dupOk, msgs)
    else
      let msgs' := list_insert msgs (insert_pos msgs seq) (seq, m)
      if err then (.simulatedError seq, msgs') else (.ok seq, msgs')

/-- Stable insertion step of the sort used to model Python's stable
`sorted(MESSAGES, key=lambda x: x[0])`. -/
def insertByKey {α : Type} (key : α → Int) (p : α) : List α → List α
  | [] => [p]
  | q :: rest => if key p ≤ key q then p :: q :: rest else q :: insertByKey key p rest

/-- Stable sort by an integer key (insertion sort; agrees with Python's stable
`sorted` on the key). -/
def sortByKey {α : Type} (key : α → Int) : List α → List α
  | [] => []
  | p :: rest => insertByKey key p (sortByKey key rest)

/-- The visibility loop of the secondary's `GET /messages`
(`src/secondary/app.py` lines 30-39): starting from `expected`, append the
payload and advance while `seq == expected`; stop at the first gap
(`seq > expected`); skip entries with `seq < expected`. -/
def visibleLoop : List Entry → Int → List String
  | [], _ => []
  | (seq, m) :: rest, expected =>
    if seq = expected then m :: visibleLoop rest (expected + 1)
    else if seq > expected then []
    else visibleLoop rest expected

/-- `GET /messages` of the secondary (`src/secondary/app.py` lines 24-40):
sort by seq; if nonempty, run the gap-hiding loop with `expected` initialised
to the lowest stored seq (`ordered[0][0]`). -/
def sec_list (msgs : List Entry) : List String :=
  match sortByKey Prod.fst msgs with
  | [] => []
  | (s0, m0) :: rest => visibleLoop ((s0, m0) :: rest) s0

/-! ## Peer health state machine (`src/master/app.py` lines 28-108) -/

/-- `SecondaryStatus` enum of the master. -/
inductive SecondaryStatus where
  | healthy : SecondaryStatus
  | suspected : SecondaryStatus
  | unhealthy : SecondaryStatus
deriving DecidableEq, Repr

/-- One value of the `SECONDARY_STATUS` dict: status, `last_heartbeat`,
`failures`, `last_success`. -/
structure StatusInfo where
  status : SecondaryStatus
  last_heartbeat : Nat
  failures : Nat
  last_success : Nat
deriving DecidableEq, Repr

/-- The record installed by `init_secondary_statuses` /
`update_secondary_status` for a previously unknown peer: HEALTHY with zero
failures, both timestamps set to the current time. -/
def initStatusInfo (now : Nat) : StatusInfo :=
  { status := .healthy, last_heartbeat := now, failures := 0, last_success := now }

/-- `update_secondary_status` (`src/master/app.py` lines 65-108) as a step
function on one peer's record.  `S`/`U` are `SUSPECTED_THRESHOLD` /
`UNHEALTHY_THRESHOLD`, `now` the probe time, `is_healthy` the probe result. -/
def update_secondary_status (S U : Nat) (now : Nat) (info : StatusInfo)
    (is_healthy : Bool) : StatusInfo :=
  let info := { info with last_heartbeat := now }
  if is_healthy then
    { info with failures := 0, last_success := now, status := .healthy }
  else
    let failures := info.failures + 1
    let info := { info with failures := failures }
    match info.status with
    | .healthy =>
      if failures ≥ S then { info with status := .suspected } else info
    | .suspected =>
      if failures ≥ U then { info with status := .unhealthy }
      else if failures < S then { info with status := .healthy }
      else info
    | .unhealthy =>
      if failures < S then { info with status := .healthy }
      else if failures < U then { info with status := .suspected }
      else info

/-- Records reachable by the heartbeat worker for one peer: the initial
HEALTHY record, closed under probe steps. -/
inductive ReachableStatus (S U : Nat) : StatusInfo → Prop where
  | init (now : Nat) : ReachableStatus S U (initStatusInfo now)
  | step (info : StatusInfo) (now : Nat) (is_healthy : Bool) :
      ReachableStatus S U info →
      ReachableStatus S U (update_secondary_status S U now info is_healthy)

/-! ## Master write path (`src/master/app.py` lines 126-260) -/

/-- Master state relevant to the write path: the log `MESSAGES`,
`SEQ_COUNTER`, and the configured `SECONDARIES` paired with their current
`SECONDARY_STATUS` (after `init_secondary_statuses`, every configured peer
has a record; a peer absent from the dict reads as HEALTHY via
`.get(..., HEALTHY)`, which pairing each peer with a status also covers). -/
structure MasterState where
  messages : List (Nat × String)
  seq_counter : Nat
  secondaries : List (String × SecondaryStatus)
deriving DecidableEq, Repr

/-- `available_secondaries` (`src/master/app.py` lines 142-146): the
configured peers whose status is not UNHEALTHY. -/
def available_secondaries (peers : List (String × SecondaryStatus)) : List String :=
  (peers.filter (fun p => p.2 ≠ SecondaryStatus.unhealthy)).map Prod.fst

/-- Body of `POST /messages`: the `msg` field (`none` = absent or not a
string) and the optional integer `w`. -/
structure PostRequest where
  msg : Option String
  w : Option Int
deriving DecidableEq, Repr

/-- Outcome of `POST /messages` on the master. -/
inductive PostOutcome where
  /-- `400 {"error": "Expected JSON with string field 'msg'"}`. -/
  | badRequestMsg : PostOutcome
  /-- `400` "Write concern w must be between 1 and max_w (only ... healthy/
  suspected secondaries available)" with the supplied `w` and `max_w`. -/
  | badRequestW (w maxW : Int) : PostOutcome
  /-- `502` "Write concern w=... cannot be satisfied" / "No healthy or
  suspected secondaries available" (`src/master/app.py` lines 216-221). -/
  | noSecondaries (w : Int) : PostOutcome
  /-- `502` "Write concern w=... not satisfied" (lines 249-254). -/
  | notSatisfied (w : Int) (acks : Nat) : PostOutcome
  /-- `201` with the assigned sequence number. -/
  | created (seq : Nat) : PostOutcome
deriving DecidableEq, Repr

/-- HTTP status code of a `POST /messages` outcome.  The handler can produce
only 400, 502 and 201; in particular it has no 503 "no quorum" response. -/
def postStatusCode : PostOutcome → Nat
  | .badRequestMsg => 400
  | .badRequestW _ _ => 400
  | .noSecondaries _ => 502
  | .notSatisfied _ _ => 502
  | .created _ => 201

/-- Result of one `POST /messages` call: the response, the updated master
state, and the set of peers to which a `/replicate` request is issued for
this write (`targets`). -/
structure PostResult where
  outcome : PostOutcome
  state : MasterState
  targets : List String
deriving DecidableEq, Repr

/-- The admitted tail of `append_message` (`src/master/app.py` lines
157-260), entered once `msg` and `w` validation passed: assign
`seq = SEQ_COUNTER + 1`, append `(seq, msg)` to the log, then either return
immediately (`w = 1`, replication fired asynchronously to every available
secondary), or — for `w > 1` — return the dead-branch 502 when no available
secondary exists, else gather acks from the available secondaries.  `ackOk`
resolves which peers' `/replicate` calls succeed; the per-call health-record
updates and the cancellation of not-yet-started futures are not modelled
(`max_workers` equals the number of futures, and no claim depends on them).
UNHEALTHY peers are never contacted: the `w = 1` loop iterates
`available_secondaries`, and `replicate_to_secondary` additionally skips a
peer whose status reads UNHEALTHY, which on the same state snapshot filters
nothing further. -/
def append_admitted (st : MasterState) (m : String) (w : Int)
    (avail : List String) (ackOk : String → Bool) : PostResult :=
  let seq := st.seq_counter + 1
  let st' : MasterState :=
    { st with seq_counter := seq, messages := st.messages ++ [(seq, m)] }
  let required : Int := w - 1
  if required = 0 then
    ⟨.created seq, st', avail⟩
  else if avail.length = 0 then
    ⟨.noSecondaries w, st', []⟩
  else
    let acks := (avail.filter ackOk).length
    if (acks : Int) < required then ⟨.notSatisfied w acks, st', avail⟩
    else ⟨.created seq, st', avail⟩

/-- `POST /messages` handler (`src/master/app.py` lines 131-260).  Rejects a
non-string `msg` with 400; computes `available_secondaries` once; a missing
`w` defaults to `len(available) + 1` with no range check, a supplied `w` is
range-checked against `max_w = len(available) + 1`; then proceeds to the
admitted tail. -/
def append_message (st : MasterState) (req : PostRequest)
    (ackOk : String → Bool) : PostResult :=
  match req.msg with
  | none => ⟨.badRequestMsg, st, []⟩
  | some m =>
    let avail := available_secondaries st.secondaries
    match req.w with
    | none => append_admitted st m ((avail.length : Int) + 1) avail ackOk
    | some wv =>
      if wv < 1 ∨ wv > (avail.length : Int) + 1 then
        ⟨.badRequestW wv ((avail.length : Int) + 1), st, []⟩
      else
        append_admitted st m wv avail ackOk

/-- `GET /messages` of the master (`src/master/app.py` lines 126-129):
payloads sorted by seq.  A pure function of the log alone. -/
def master_list (st : MasterState) : List String :=
  (sortByKey (fun p => (p.1 : Int)) st.messages).map Prod.snd

/-! ## Quorum rule as the spec words it (spec §4.2), for comparison with the
code's admission behaviour. -/

/-- Number of peers currently HEALTHY (the spec's `H`). -/
def specHealthyCount (peers : List (String × SecondaryStatus)) : Nat :=
  (peers.filter (fun p => p.2 = SecondaryStatus.healthy)).length

/-- The spec's majority threshold `M = floor(N/2) + 1` with `N = 1 + |peers|`. -/
def specMajority (peers : List (String × SecondaryStatus)) : Nat :=
  (1 + peers.length) / 2 + 1

/-- The spec's Quorum Gate: admit iff `1 + H ≥ M`. -/
def specQuorumAdmit (peers : List (String × SecondaryStatus)) : Bool :=
  specMajority peers ≤ 1 + specHealthyCount peers

/-! ## Iterated operations used by the idempotence and sequencing claims -/

/-- Send the same `(seq, msg)` replication request once per element of
`errs` (each element being that call's simulated-error coin toss), threading
the secondary's store through; returns the list of responses and the final
store. -/
def replicateN : List Entry → Int → String → List Bool → List ReplicateOutcome × List Entry
  | msgs, _, _, [] => ([], msgs)
  | msgs, seq, m, e :: es =>
    let r := replicate msgs (some m) (some seq) e
    let rest := replicateN r.2 seq m es
    (r.1 :: rest.1, rest.2)

/-- Submit one `POST /messages` per element of `msgs` (default write concern,
all replication calls succeeding), threading the master state through. -/
def run_writes (st : MasterState) : List String → MasterState
  | [] => st
  | m :: ms => run_writes (append_message st ⟨some m, none⟩ (fun _ => true)).state ms

/-- The health-record invariant of the claim: a SUSPECTED record has seen at
least `S` consecutive failures, an UNHEALTHY one at least `U`. -/
def statusInvariant (S U : Nat) (info : StatusInfo) : Prop :=
  (info.status = SecondaryStatus.suspected → S ≤ info.failures) ∧
  (info.status = SecondaryStatus.unhealthy → U ≤ info.failures)

/-- A concrete reachable UNHEALTHY record under the default thresholds
`S = 2`, `U = 5`: five consecutive failed probes from the initial record. -/
def exampleUnhealthyInfo : StatusInfo :=
  update_secondary_status 2 5 4
    (update_secondary_status 2 5 3
      (update_secondary_status 2 5 2
        (update_secondary_status 2 5 1
          (update_secondary_status 2 5 0 (initStatusInfo 0) false) false) false) false) false

/-! ## Helper lemmas (shared) -/

theorem list_insert_perm {α : Type} (l : List α) (n : Nat) (x : α) :
    (list_insert l n x).Perm (x :: l) := by
  induction l generalizing n with
  | nil => cases n <;> exact List.Perm.refl _
  | cons y l ih =>
    cases n with
    | zero => exact List.Perm.refl _
    | succ n => exact ((ih n).cons y).trans (List.Perm.swap x y l)

theorem any_seq_eq (msgs : List Entry) (seq : Int) :
    (msgs.any fun p => p.1 == seq) = true ↔ seq ∈ msgs.map Prod.fst := by
  rw [List.any_eq_true]
  constructor
  · rintro ⟨p, hp, hps⟩
    exact (beq_iff_eq.1 hps) ▸ List.mem_map_of_mem Prod.fst hp
  · rintro h
    rcases List.mem_map.1 h with ⟨p, hp, hps⟩
    exact ⟨p, hp, beq_iff_eq.2 hps⟩

theorem replicate_dup (msgs : List Entry) (m : String) (seq : Int) (err : Bool)
    (h : seq ∈ msgs.map Prod.fst) :
    replicate msgs (some m) (some seq) err = (.dupOk, msgs) := by
  unfold replicate
  simp [(any_seq_eq msgs seq).2 h]

theorem replicate_fresh (msgs : List Entry) (m : String) (seq : Int) (err : Bool)
    (h : seq ∉ msgs.map Prod.fst) :
    replicate msgs (some m) (some seq) err =
      ((if err then ReplicateOutcome.simulatedError seq else .ok seq),
        list_insert msgs (insert_pos msgs seq) (seq, m)) := by
  have hany : (msgs.any fun p => p.1 == seq) = false := by
    rw [← Bool.not_eq_true, any_seq_eq]
    exact h
  unfold replicate
  simp [hany]
  cases err <;> simp

theorem fresh_mem (msgs : List Entry) (m : String) (seq : Int) :
    seq ∈ (list_insert msgs (insert_pos msgs seq) (seq, m)).map Prod.fst :=
  List.mem_map.2 ⟨(seq, m),
    ((list_insert_perm msgs (insert_pos msgs seq) (seq, m)).mem_iff).2 (List.mem_cons_self _ _),
    rfl⟩

theorem fresh_filter_one (msgs : List Entry) (m : String) (seq : Int)
    (h : seq ∉ msgs.map Prod.fst) :
    ((list_insert msgs (insert_pos msgs seq) (seq, m)).filter
        (fun p => p.1 == seq)).length = 1 := by
  have hperm := List.Perm.filter (fun p : Entry => p.1 == seq)
    (list_insert_perm msgs (insert_pos msgs seq) (seq, m))
  rw [hperm.length_eq]
  have hnil : msgs.filter (fun p : Entry => p.1 == seq) = [] := by
    rw [List.filter_eq_nil_iff]
    intro p hp hps
    exact h ((beq_iff_eq.1 hps) ▸ List.mem_map_of_mem Prod.fst hp)
  simp [List.filter, hnil]

theorem replicateN_all_dup (msgs : List Entry) (seq : Int) (m : String)
    (errs : List Bool) (h : seq ∈ msgs.map Prod.fst) :
    replicateN msgs seq m errs = (errs.map (fun _ => ReplicateOutcome.dupOk), msgs) := by
  induction errs with
  | nil => rfl
  | cons e es ih =>
    unfold replicateN
    simp [replicate_dup msgs m seq e h, ih]

/-! ## C3 — gap-hiding visibility -/

/-- C3 (counterexample): on a fresh secondary, after `replicate(5,"e")` and
then `replicate(3,"c")`, `GET /messages` returns `["c"]`, not the `[]` the
claim states: visibility begins at the lowest stored seq, not at seq 1. -/
theorem gap_hiding_not_from_one_cex :
    sec_list (replicate (replicate [] (some "e") (some 5) false).2
        (some "c") (some 3) false).2 = ["c"] ∧
    (["c"] : List String) ≠ ([] : List String) := by
  constructor
  · rfl
  · simp

/-- C3 (amended): gap-hiding starts at the lowest stored sequence.  On a
fresh secondary, after `replicate(j, b)` and then `replicate(i, a)` with a
gap between them (`i + 1 < j`), `GET /messages` returns `[a]`: the payload at
the lowest stored seq is visible and everything beyond the gap is hidden. -/
theorem gap_hiding_lowest_seq (a b : String) (i j : Int) (h : i + 1 < j) :
    sec_list (replicate (replicate [] (some b) (some j) false).2
        (some a) (some i) false).2 = [a] := by
  have h1 : replicate [] (some b) (some j) false = (.ok j, [(j, b)]) := by
    simp [replicate, insert_pos, list_insert]
  rw [h1]
  have hfresh : i ∉ ([(j, b)] : List Entry).map Prod.fst := by
    simp only [List.map, List.mem_singleton]
    omega
  rw [replicate_fresh _ _ _ _ hfresh]
  have hji : ¬ (j < i) := by omega
  have hij : i ≤ j := by omega
  have hne : ¬ (j = i + 1) := by omega
  have hgt : j > i + 1 := h
  simp [insert_pos, list_insert, sec_list, sortByKey, insertByKey, visibleLoop,
    hji, hij, hne, hgt]

/-- C3 (witness): the amended theorem at `i = 3`, `j = 5`. -/
theorem gap_hiding_lowest_seq_witness :
    (3 : Int) + 1 < 5 ∧
    sec_list (replicate (replicate [] (some "E") (some 5) false).2
        (some "C") (some 3) false).2 = ["C"] :=
  ⟨by decide, gap_hiding_lowest_seq "C" "E" 3 5 (by decide)⟩

/-! ## C5 — replicate idempotence -/

/-- C5 (counterexample): the very first (non-duplicate) `/replicate` call can
return HTTP 500 ("simulated internal error") rather than the 200 the claim
states — and the entry is stored anyway. -/
theorem replicate_first_call_500_cex :
    (replicate [] (some "a") (some 1) true).1 = ReplicateOutcome.simulatedError 1 ∧
    repStatusCode (replicate [] (some "a") (some 1) true).1 = 500 ∧
    (replicate [] (some "a") (some 1) true).2 = [((1 : Int), "a")] := by
  refine ⟨rfl, rfl, rfl⟩

/-- Unfolding equation of `replicateN` on a nonempty list of calls. -/
theorem replicateN_cons (msgs : List Entry) (seq : Int) (m : String)
    (e : Bool) (es : List Bool) :
    replicateN msgs seq m (e :: es) =
      ((replicate msgs (some m) (some seq) e).1 ::
          (replicateN (replicate msgs (some m) (some seq) e).2 seq m es).1,
        (replicateN (replicate msgs (some m) (some seq) e).2 seq m es).2) := rfl

/-- C5 (amended): sending the same `(seq, msg)` request `N ≥ 1` times to a
secondary whose log does not yet hold `seq` stores exactly one entry with
that seq; every call after the first returns 200 with `duplicate=true` and
leaves the log unchanged; the first call inserts and returns 200 (`ok`)
unless the simulated-internal-error hook fires, in which case it returns 500
with the entry nevertheless stored. -/
theorem replicate_idempotent (msgs : List Entry) (seq : Int) (m : String)
    (e0 : Bool) (errs : List Bool) (h : seq ∉ msgs.map Prod.fst) :
    ((replicateN msgs seq m (e0 :: errs)).2.filter (fun p => p.1 == seq)).length = 1 ∧
    (replicateN msgs seq m (e0 :: errs)).1 =
      (if e0 then ReplicateOutcome.simulatedError seq else .ok seq)
        :: errs.map (fun _ => ReplicateOutcome.dupOk) ∧
    (replicateN msgs seq m (e0 :: errs)).2 = (replicate msgs (some m) (some seq) e0).2 ∧
    repStatusCode ReplicateOutcome.dupOk = 200 ∧
    repDuplicateFlag ReplicateOutcome.dupOk = true := by
  have hfresh := replicate_fresh msgs m seq e0 h
  have hlog : (replicate msgs (some m) (some seq) e0).2
      = list_insert msgs (insert_pos msgs seq) (seq, m) := by rw [hfresh]
  have hmem : seq ∈ (replicate msgs (some m) (some seq) e0).2.map Prod.fst := by
    rw [hlog]; exact fresh_mem msgs m seq
  have hdup := replicateN_all_dup (replicate msgs (some m) (some seq) e0).2 seq m errs hmem
  refine ⟨?_, ?_, ?_, rfl, rfl⟩
  · rw [replicateN_cons, hdup]
    rw [hlog] at hdup ⊢
    exact fresh_filter_one msgs m seq h
  · rw [replicateN_cons, hdup, hfresh]
  · rw [replicateN_cons, hdup]

/-- C5 (witness): three identical sends of `(7, "w")` to a fresh secondary,
the second one with the error hook firing. -/
theorem replicate_idempotent_witness :
    ((replicateN [] 7 "w" (false :: [true, false])).2.filter
        (fun p => p.1 == (7 : Int))).length = 1 ∧
    (replicateN [] 7 "w" (false :: [true, false])).1 =
      (if false then ReplicateOutcome.simulatedError 7 else .ok 7)
        :: [true, false].map (fun _ => ReplicateOutcome.dupOk) :=
  ⟨(replicate_idempotent [] 7 "w" false [true, false] (by simp)).1,
   (replicate_idempotent [] 7 "w" false [true, false] (by simp)).2.1⟩

/-! ## C9 — no seq validation on `/replicate` -/

/-- C9 (counterexample): a `/replicate` body with the `seq` field absent is
not rejected: `seq` defaults to 0, the entry `(0, "x")` is inserted, and the
call returns 200 — the claim states it is rejected with an error and nothing
is inserted. -/
theorem replicate_seq_default_zero_cex :
    replicate [] (some "x") none false = (ReplicateOutcome.ok 0, [((0 : Int), "x")]) ∧
    repStatusCode (ReplicateOutcome.ok 0) = 200 :=
  ⟨rfl, rfl⟩

/-- C9 (amended): the secondary performs no validation on `seq`: a missing
`seq` behaves exactly like `seq = 0`, and any integer `seq ≤ 0` not already
stored is inserted into the log and acknowledged (never a 400 rejection),
just like a positive one. -/
theorem replicate_accepts_nonpositive_seq (msgs : List Entry) (m : String)
    (seq : Int) (err : Bool) (_hseq : seq ≤ 0) (h : seq ∉ msgs.map Prod.fst) :
    replicate msgs (some m) none err = replicate msgs (some m) (some 0) err ∧
    seq ∈ (replicate msgs (some m) (some seq) err).2.map Prod.fst ∧
    (replicate msgs (some m) (some seq) err).1 ≠ ReplicateOutcome.badRequest ∧
    repStatusCode (replicate msgs (some m) (some seq) err).1 ≠ 400 := by
  refine ⟨rfl, ?_, ?_, ?_⟩
  · rw [replicate_fresh msgs m seq err h]; exact fresh_mem msgs m seq
  · rw [replicate_fresh msgs m seq err h]; cases err <;> simp
  · rw [replicate_fresh msgs m seq err h]; cases err <;> simp [repStatusCode]

/-- C9 (witness): the amended theorem at `seq = -2` on a fresh secondary. -/
theorem replicate_accepts_nonpositive_seq_witness :
    (-2 : Int) ≤ 0 ∧
    (-2 : Int) ∈ (replicate [] (some "y") (some (-2)) false).2.map Prod.fst :=
  ⟨by decide, (replicate_accepts_nonpositive_seq [] "y" (-2) false (by decide) (by simp)).2.1⟩

/-! ## C10 — the 500 error does not imply an unchanged log -/

/-- C10: for a non-duplicate `(seq, msg)`, the secondary can answer 500
("simulated internal error") with the entry already inserted; an identical
retry then returns 200 with `duplicate=true`, the log is not modified again,
and the entry is stored exactly once. -/
theorem insert_before_simulated_error (msgs : List Entry) (seq : Int) (m : String)
    (h : seq ∉ msgs.map Prod.fst) :
    (replicate msgs (some m) (some seq) true).1 = ReplicateOutcome.simulatedError seq ∧
    repStatusCode (replicate msgs (some m) (some seq) true).1 = 500 ∧
    seq ∈ (replicate msgs (some m) (some seq) true).2.map Prod.fst ∧
    ((replicate msgs (some m) (some seq) true).2.filter (fun p => p.1 == seq)).length = 1 ∧
    (∀ err2 : Bool,
      replicate (replicate msgs (some m) (some seq) true).2 (some m) (some seq) err2
        = (ReplicateOutcome.dupOk, (replicate msgs (some m) (some seq) true).2)) ∧
    repDuplicateFlag ReplicateOutcome.dupOk = true := by
  have hfresh := replicate_fresh msgs m seq true h
  have hmem : seq ∈ (replicate msgs (some m) (some seq) true).2.map Prod.fst := by
    rw [hfresh]; exact fresh_mem msgs m seq
  refine ⟨by rw [hfresh]; rfl, by rw [hfresh]; rfl, hmem, ?_, ?_, rfl⟩
  · rw [hfresh]; exact fresh_filter_one msgs m seq h
  · intro err2; exact replicate_dup _ m seq err2 hmem

/-- C10 (witness): the theorem at `(9, "x")` on a fresh secondary. -/
theorem insert_before_simulated_error_witness :
    (replicate [] (some "x") (some 9) true).1 = ReplicateOutcome.simulatedError 9 ∧
    (9 : Int) ∈ (replicate [] (some "x") (some 9) true).2.map Prod.fst :=
  ⟨(insert_before_simulated_error [] 9 "x" (by simp)).1,
   (insert_before_simulated_error [] 9 "x" (by simp)).2.2.1⟩

/-! ## C6 — peer health state machine -/

/-- One probe step preserves the failure-count invariant (needs the
configuration constraint `S ≤ U`, satisfied by the defaults `S = 2`,
`U = 5`). -/
theorem statusInvariant_step (S U : Nat) (now : Nat)
    (info : StatusInfo) (b : Bool) (h : statusInvariant S U info) :
    statusInvariant S U (update_secondary_status S U now info b) := by
  obtain ⟨hs, hu⟩ := h
  unfold update_secondary_status statusInvariant
  cases b with
  | true => simp
  | false =>
    cases hstatus : info.status with
    | healthy => simp only [hstatus]; split_ifs <;> simp_all
    | suspected =>
      simp only [hstatus]
      have := hs hstatus
      split_ifs <;> simp_all
    | unhealthy =>
      simp only [hstatus]
      have := hu hstatus
      split_ifs <;> simp_all

/-- Every record reachable by the heartbeat worker satisfies the invariant. -/
theorem statusInvariant_reachable (S U : Nat) (info : StatusInfo)
    (h : ReachableStatus S U info) : statusInvariant S U info := by
  induction h with
  | init now => exact ⟨fun hc => by simp [initStatusInfo] at hc,
      fun hc => by simp [initStatusInfo] at hc⟩
  | step info now b _ ih => exact statusInvariant_step S U now info b ih

/-- C6: with `S ≤ U` (as the defaults `S = 2 ≤ 5 = U` are), for every
reachable per-peer record: a successful probe always yields
`(HEALTHY, failures = 0)`; a failed probe taken in state UNHEALTHY leaves the
state UNHEALTHY (the branches demoting a failing UNHEALTHY peer to SUSPECTED
or HEALTHY are unreachable); and reachable records satisfy
SUSPECTED → failures ≥ S and UNHEALTHY → failures ≥ U. -/
theorem health_machine_monotone (S U : Nat) (hSU : S ≤ U) (info : StatusInfo)
    (h : ReachableStatus S U info) (now : Nat) :
    ((update_secondary_status S U now info true).status = SecondaryStatus.healthy ∧
      (update_secondary_status S U now info true).failures = 0) ∧
    (info.status = SecondaryStatus.unhealthy →
      (update_secondary_status S U now info false).status = SecondaryStatus.unhealthy) ∧
    statusInvariant S U info := by
  have inv := statusInvariant_reachable S U info h
  refine ⟨⟨by simp [update_secondary_status], by simp [update_secondary_status]⟩, ?_, inv⟩
  intro hun
  have hU := inv.2 hun
  unfold update_secondary_status
  simp only [hun]
  split_ifs <;> simp_all <;> omega

/-- C6 (witness): the theorem under the default thresholds at a concrete
reachable UNHEALTHY record (five consecutive failed probes). -/
theorem health_machine_monotone_witness :
    (update_secondary_status 2 5 9 exampleUnhealthyInfo true).status = SecondaryStatus.healthy ∧
    (update_secondary_status 2 5 9 exampleUnhealthyInfo true).failures = 0 ∧
    (update_secondary_status 2 5 9 exampleUnhealthyInfo false).status = SecondaryStatus.unhealthy ∧
    5 ≤ exampleUnhealthyInfo.failures := by
  have h := health_machine_monotone 2 5 (by decide) exampleUnhealthyInfo
    (ReachableStatus.step _ 4 false (ReachableStatus.step _ 3 false
      (ReachableStatus.step _ 2 false (ReachableStatus.step _ 1 false
        (ReachableStatus.step _ 0 false (ReachableStatus.init 0)))))) 9
  exact ⟨h.1.1, h.1.2, h.2.1 (by decide), h.2.2.2 (by decide)⟩

/-! ## Master write-path lemmas -/

/-- Once admitted, the new state is always the old one with the counter
bumped and `(counter + 1, msg)` appended — in every branch, including the
502 branches. -/
theorem append_admitted_state (st : MasterState) (m : String) (w : Int)
    (avail : List String) (ackOk : String → Bool) :
    (append_admitted st m w avail ackOk).state =
      { st with seq_counter := st.seq_counter + 1,
                messages := st.messages ++ [(st.seq_counter + 1, m)] } := by
  unfold append_admitted
  dsimp only
  split_ifs <;> rfl

/-- The admitted tail never produces a 400 outcome. -/
theorem append_admitted_outcome (st : MasterState) (m : String) (w : Int)
    (avail : List String) (ackOk : String → Bool) :
    (append_admitted st m w avail ackOk).outcome = .created (st.seq_counter + 1) ∨
    (append_admitted st m w avail ackOk).outcome = .noSecondaries w ∨
    ∃ k, (append_admitted st m w avail ackOk).outcome = .notSatisfied w k := by
  unfold append_admitted
  dsimp only
  split_ifs <;> simp

/-- The admitted tail's targets are either all of `avail` or (in the dead
502 branch) empty. -/
theorem append_admitted_targets (st : MasterState) (m : String) (w : Int)
    (avail : List String) (ackOk : String → Bool) :
    (append_admitted st m w avail ackOk).targets = avail ∨
    (append_admitted st m w avail ackOk).targets = [] := by
  unfold append_admitted
  dsimp only
  split_ifs <;> simp

/-- With the default write concern (`w` absent), the request is always
admitted: the state becomes the appended one, whatever the peers' health and
whatever the replication outcomes. -/
theorem append_message_default_w_state (st : MasterState) (m : String)
    (ackOk : String → Bool) :
    (append_message st ⟨some m, none⟩ ackOk).state =
      { st with seq_counter := st.seq_counter + 1,
                messages := st.messages ++ [(st.seq_counter + 1, m)] } := by
  show (append_admitted st m _ _ ackOk).state = _
  exact append_admitted_state ..

/-- The 502 "No healthy or suspected secondaries available" branch
(`src/master/app.py` lines 216-221) is dead code: validation against the
same `available_secondaries` snapshot already rejected any `w > 1` when the
snapshot is empty, and `w` absent or `w = 1` takes the asynchronous path. -/
theorem noSecondaries_unreachable (st : MasterState) (req : PostRequest)
    (ackOk : String → Bool) (w : Int) :
    (append_message st req ackOk).outcome ≠ PostOutcome.noSecondaries w := by
  obtain ⟨msg, wfield⟩ := req
  cases msg with
  | none => simp [append_message]
  | some m =>
    cases wfield with
    | none =>
      simp only [append_message]
      unfold append_admitted
      dsimp only
      split_ifs with h1 h2 h3 <;> try simp
      exfalso
      omega
    | some wv =>
      simp only [append_message]
      split_ifs with hval
      · simp
      · push_neg at hval
        unfold append_admitted
        dsimp only
        split_ifs with h1 h2 h3 <;> try simp
        exfalso
        omega

/-- The admitted tail never produces a 400 response. -/
theorem append_admitted_not_400 (st : MasterState) (m : String) (w : Int)
    (avail : List String) (ackOk : String → Bool) :
    postStatusCode (append_admitted st m w avail ackOk).outcome ≠ 400 := by
  rcases append_admitted_outcome st m w avail ackOk with h | h | ⟨k, h⟩ <;>
    rw [h] <;> simp [postStatusCode]

/-! ## C1 — quorum admission -/

/-- C1 (counterexample): with a single peer marked UNHEALTHY the spec's
quorum gate denies (`1 + H = 1 < 2 = M`), yet `POST /messages` with no `w`
is admitted with 201 and sequence 1: the master has no "no quorum"
rejection. -/
theorem quorum_gate_missing_cex :
    specQuorumAdmit [("s1", SecondaryStatus.unhealthy)] = false ∧
    (append_message ⟨[], 0, [("s1", SecondaryStatus.unhealthy)]⟩
        ⟨some "x", none⟩ (fun _ => false)).outcome = PostOutcome.created 1 ∧
    postStatusCode (PostOutcome.created 1) = 201 :=
  ⟨rfl, rfl, rfl⟩

/-- C1 (amended): the master has no quorum gate.  No `POST /messages`
response carries status 503; a write whose body has a string `msg` and omits
`w` is always admitted — it bumps the counter and appends to the log —
whatever the peers' health; and the master's `GET /messages` is a function
of the log alone, independent of peer health. -/
theorem no_quorum_gate (st : MasterState) (req : PostRequest)
    (ackOk : String → Bool) :
    postStatusCode (append_message st req ackOk).outcome ≠ 503 ∧
    (∀ m : String, req = ⟨some m, none⟩ →
      (append_message st req ackOk).state.seq_counter = st.seq_counter + 1 ∧
      (append_message st req ackOk).state.messages
        = st.messages ++ [(st.seq_counter + 1, m)]) ∧
    (∀ msgs c peers peers',
      master_list ⟨msgs, c, peers⟩ = master_list ⟨msgs, c, peers'⟩) := by
  refine ⟨?_, ?_, fun _ _ _ _ => rfl⟩
  · cases hout : (append_message st req ackOk).outcome <;> simp [postStatusCode]
  · rintro m rfl
    rw [append_message_default_w_state]
    exact ⟨rfl, rfl⟩

/-- C1 (witness): the amended theorem at a state whose only peer is
UNHEALTHY. -/
theorem no_quorum_gate_witness :
    postStatusCode (append_message ⟨[], 0, [("s1", SecondaryStatus.unhealthy)]⟩
        ⟨some "x", none⟩ (fun _ => false)).outcome ≠ 503 ∧
    (append_message ⟨[], 0, [("s1", SecondaryStatus.unhealthy)]⟩
        ⟨some "x", none⟩ (fun _ => false)).state.messages = [(1, "x")] := by
  have h := no_quorum_gate ⟨[], 0, [("s1", SecondaryStatus.unhealthy)]⟩
    ⟨some "x", none⟩ (fun _ => false)
  refine ⟨h.1, ?_⟩
  have h2 := (h.2.1 "x" rfl).2
  simpa using h2

/-! ## C2 — replication targeting and peer health -/

/-- C2 (counterexample): an admitted write (one configured peer, UNHEALTHY,
`w` absent, 201 returned) issues a replication request to nobody: the
UNHEALTHY peer `s1` is excluded from delivery, contradicting "every
configured secondary, including peers whose health state is UNHEALTHY". -/
theorem replication_excludes_unhealthy_cex :
    (append_message ⟨[], 0, [("s1", SecondaryStatus.unhealthy)]⟩
        ⟨some "y", none⟩ (fun _ => false)).outcome = PostOutcome.created 1 ∧
    (append_message ⟨[], 0, [("s1", SecondaryStatus.unhealthy)]⟩
        ⟨some "y", none⟩ (fun _ => false)).targets = [] ∧
    ("s1", SecondaryStatus.unhealthy) ∈
      ([("s1", SecondaryStatus.unhealthy)] : List (String × SecondaryStatus)) :=
  ⟨rfl, rfl, List.mem_singleton_self _⟩

/-- C2 (amended): replication targeting is restricted by health: every peer
to which a replication request is issued for a write lies in
`available_secondaries` (the currently non-UNHEALTHY peers), and for a write
with `w` absent the target set is exactly `available_secondaries`; UNHEALTHY
peers are excluded from delivery for that write. -/
theorem replication_targets_available_only (st : MasterState)
    (req : PostRequest) (ackOk : String → Bool) :
    (∀ p ∈ (append_message st req ackOk).targets,
      p ∈ available_secondaries st.secondaries) ∧
    (∀ m : String, req = ⟨some m, none⟩ →
      (append_message st req ackOk).targets = available_secondaries st.secondaries) := by
  constructor
  · intro p hp
    obtain ⟨msg, wfield⟩ := req
    cases msg with
    | none => simp [append_message] at hp
    | some m =>
      cases wfield with
      | none =>
        simp only [append_message] at hp
        rcases append_admitted_targets st m (((available_secondaries st.secondaries).length : Int) + 1)
            (available_secondaries st.secondaries) ackOk with h | h <;> rw [h] at hp
        · exact hp
        · simp at hp
      | some wv =>
        simp only [append_message] at hp
        split_ifs at hp
        · simp at hp
        · rcases append_admitted_targets st m wv
              (available_secondaries st.secondaries) ackOk with h | h <;> rw [h] at hp
          · exact hp
          · simp at hp
  · rintro m rfl
    simp only [append_message]
    unfold append_admitted
    dsimp only
    split_ifs with h1 h2 h3
    · rfl
    · exfalso; omega
    · rfl
    · rfl

/-- C2 (witness): the amended theorem at a state with one UNHEALTHY and one
HEALTHY peer: only the healthy peer is targeted. -/
theorem replication_targets_available_only_witness :
    (append_message ⟨[], 0, [("s1", SecondaryStatus.unhealthy),
        ("s2", SecondaryStatus.healthy)]⟩ ⟨some "z", none⟩ (fun _ => true)).targets
      = available_secondaries [("s1", SecondaryStatus.unhealthy),
          ("s2", SecondaryStatus.healthy)] ∧
    available_secondaries [("s1", SecondaryStatus.unhealthy),
        ("s2", SecondaryStatus.healthy)] = ["s2"] :=
  ⟨(replication_targets_available_only ⟨[], 0, [("s1", SecondaryStatus.unhealthy),
      ("s2", SecondaryStatus.healthy)]⟩ ⟨some "z", none⟩ (fun _ => true)).2 "z" rfl,
   rfl⟩

/-! ## C4 — write-concern validation range -/

/-- C4 (counterexample): with one configured peer that is UNHEALTHY, the
claim's bound `N = 1 + #configured = 2` accepts `w = 2`, but the code
rejects `w = 2` with a 400: `max_w = len(available_secondaries) + 1 = 1`
counts only non-UNHEALTHY peers. -/
theorem write_concern_range_cex :
    (1 : Int) ≤ 2 ∧
    (2 : Int) ≤ 1 + (([("s1", SecondaryStatus.unhealthy)] :
        List (String × SecondaryStatus)).length : Int) ∧
    (append_message ⟨[], 0, [("s1", SecondaryStatus.unhealthy)]⟩
        ⟨some "x", some 2⟩ (fun _ => true)).outcome = PostOutcome.badRequestW 2 1 ∧
    postStatusCode (PostOutcome.badRequestW 2 1) = 400 :=
  ⟨by decide, by decide, rfl, rfl⟩

/-- C4 (amended): for a `POST /messages` whose body has a string `msg` and an
integer `w`, the request is rejected with the 400 write-concern error if and
only if `w < 1` or `w > 1 + |available_secondaries|`, where
`available_secondaries` holds the currently non-UNHEALTHY peers: the bound
depends on current peer health, not on the configured peer count. -/
theorem write_concern_range_health_dependent (st : MasterState) (m : String)
    (w : Int) (ackOk : String → Bool) :
    (append_message st ⟨some m, some w⟩ ackOk).outcome
        = PostOutcome.badRequestW w
            (((available_secondaries st.secondaries).length : Int) + 1)
      ↔ (w < 1 ∨ ((available_secondaries st.secondaries).length : Int) + 1 < w) := by
  simp only [append_message]
  split_ifs with hval
  · exact iff_of_true rfl hval
  · constructor
    · intro hc
      exfalso
      rcases append_admitted_outcome st m w
          (available_secondaries st.secondaries) ackOk with h | h | ⟨k, h⟩ <;>
        rw [h] at hc <;> simp at hc
    · intro hr
      exact absurd hr hval

/-- C4 (witness): the amended theorem at `w = 5` with one UNHEALTHY peer. -/
theorem write_concern_range_health_dependent_witness :
    (append_message ⟨[], 0, [("s1", SecondaryStatus.unhealthy)]⟩
        ⟨some "x", some 5⟩ (fun _ => true)).outcome
      = PostOutcome.badRequestW 5
          (((available_secondaries [("s1", SecondaryStatus.unhealthy)]).length : Int) + 1) :=
  (write_concern_range_health_dependent ⟨[], 0, [("s1", SecondaryStatus.unhealthy)]⟩
      "x" 5 (fun _ => true)).2 (Or.inr (by decide))

/-! ## C7 — monotonic gap-free sequencing -/

/-- If the log's seq values are exactly `1..counter`, they remain so after
any run of default-write-concern writes, with the counter advanced by the
number of writes. -/
theorem run_writes_invariant (msgs : List String) (st : MasterState)
    (h : st.messages.map Prod.fst = List.range' 1 st.seq_counter) :
    (run_writes st msgs).messages.map Prod.fst
        = List.range' 1 (st.seq_counter + msgs.length) ∧
    (run_writes st msgs).seq_counter = st.seq_counter + msgs.length := by
  induction msgs generalizing st with
  | nil => simpa using ⟨h, rfl⟩
  | cons m ms ih =>
    unfold run_writes
    rw [append_message_default_w_state]
    have harith : (1 : Nat) + 1 * st.seq_counter = st.seq_counter + 1 := by omega
    have h' : (({ st with seq_counter := st.seq_counter + 1,
                          messages := st.messages ++ [(st.seq_counter + 1, m)] } :
        MasterState)).messages.map Prod.fst = List.range' 1 (st.seq_counter + 1) := by
      rw [List.range'_concat, harith]
      show (st.messages ++ [(st.seq_counter + 1, m)]).map Prod.fst = _
      rw [List.map_append, h]
      rfl
    obtain ⟨ha, hb⟩ := ih _ h'
    constructor
    · rw [ha]; congr 1; simp; omega
    · rw [hb]; simp; omega

/-- C7: starting from an empty log and counter 0, any run of accepted writes
assigns sequence numbers 1, 2, …, k in submission order: the log's seq
values are exactly `1..k` (no gaps), strictly increasing, duplicate-free,
and the counter ends at k. -/
theorem sequencing_gap_free (peers : List (String × SecondaryStatus))
    (msgs : List String) :
    (run_writes ⟨[], 0, peers⟩ msgs).messages.map Prod.fst
        = List.range' 1 msgs.length ∧
    (run_writes ⟨[], 0, peers⟩ msgs).seq_counter = msgs.length ∧
    List.Pairwise (· < ·) ((run_writes ⟨[], 0, peers⟩ msgs).messages.map Prod.fst) ∧
    ((run_writes ⟨[], 0, peers⟩ msgs).messages.map Prod.fst).Nodup := by
  obtain ⟨ha, hb⟩ := run_writes_invariant msgs ⟨[], 0, peers⟩ (by simp)
  rw [Nat.zero_add] at ha hb
  refine ⟨ha, hb, ?_, ?_⟩
  · rw [ha]; exact List.pairwise_lt_range' 1 msgs.length
  · rw [ha]; exact List.nodup_range' 1 msgs.length

/-! ## C8 — admission-denial atomicity -/

/-- C8 (counterexample): at a state with one UNHEALTHY peer — the spec's
quorum gate denies, and no usable secondary is available — `POST /messages`
without `w` is not rejected at all: it consumes sequence 2 and appends
`(2, "x")` to the log, contradicting "the error is returned immediately, no
sequence number is consumed, and the master log is not mutated". -/
theorem denial_after_mutation_cex :
    specQuorumAdmit [("s1", SecondaryStatus.unhealthy)] = false ∧
    available_secondaries [("s1", SecondaryStatus.unhealthy)] = [] ∧
    (append_message ⟨[(1, "a")], 1, [("s1", SecondaryStatus.unhealthy)]⟩
        ⟨some "x", none⟩ (fun _ => false)).outcome = PostOutcome.created 2 ∧
    (append_message ⟨[(1, "a")], 1, [("s1", SecondaryStatus.unhealthy)]⟩
        ⟨some "x", none⟩ (fun _ => false)).state.seq_counter = 2 ∧
    (append_message ⟨[(1, "a")], 1, [("s1", SecondaryStatus.unhealthy)]⟩
        ⟨some "x", none⟩ (fun _ => false)).state.messages = [(1, "a"), (2, "x")] :=
  ⟨rfl, rfl, rfl, rfl, rfl⟩

/-- C8 (amended): the only rejections issued before admission are the 400
bad-request responses, and those are atomic — state unchanged, no
replication targets.  The "no healthy or suspected secondaries" 502 branch,
the code's only no-usable-secondaries denial (placed after sequence
assignment and log append), is unreachable: with no usable secondary a write
with `w` absent or `w = 1` is admitted and mutates the state, and a supplied
`w > 1` is already rejected as a 400 by validation. -/
theorem rejection_atomicity (st : MasterState) (req : PostRequest)
    (ackOk : String → Bool) :
    (postStatusCode (append_message st req ackOk).outcome = 400 →
      (append_message st req ackOk).state = st ∧
      (append_message st req ackOk).targets = []) ∧
    (∀ w : Int, (append_message st req ackOk).outcome ≠ PostOutcome.noSecondaries w) := by
  refine ⟨?_, fun w => noSecondaries_unreachable st req ackOk w⟩
  intro h400
  obtain ⟨msg, wfield⟩ := req
  cases msg with
  | none => exact ⟨rfl, rfl⟩
  | some m =>
    cases wfield with
    | none =>
      exfalso
      have h : postStatusCode (append_admitted st m
          (((available_secondaries st.secondaries).length : Int) + 1)
          (available_secondaries st.secondaries) ackOk).outcome = 400 := h400
      exact append_admitted_not_400 st m _ _ ackOk h
    | some wv =>
      by_cases hval : wv < 1 ∨ wv > ((available_secondaries st.secondaries).length : Int) + 1
      · simp only [append_message]
        rw [if_pos hval]
        exact ⟨rfl, rfl⟩
      · exfalso
        have hred : append_message st ⟨some m, some wv⟩ ackOk
            = append_admitted st m wv (available_secondaries st.secondaries) ackOk := by
          simp only [append_message]
          rw [if_neg hval]
        rw [hred] at h400
        exact append_admitted_not_400 st m wv _ ackOk h400

/-- C8 (witness): a 400 rejection (missing `msg`) leaves the state
untouched. -/
theorem rejection_atomicity_witness :
    postStatusCode (append_message ⟨[(1, "a")], 1, []⟩ ⟨none, none⟩
        (fun _ => true)).outcome = 400 ∧
    (append_message ⟨[(1, "a")], 1, []⟩ ⟨none, none⟩ (fun _ => true)).state
      = ⟨[(1, "a")], 1, []⟩ :=
  ⟨rfl, ((rejection_atomicity ⟨[(1, "a")], 1, []⟩ ⟨none, none⟩ (fun _ => true)).1 rfl).1⟩

end ReplicatedLog
